import Mathlib

/-
Verification of the hono-uws adapter core (src/uws.ts): a shallow embedding
of the LightweightResponse fast-path cache, the response writers, the lazy
request descriptor, the WebSocket upgrade bridge and the connection abort
bookkeeping, together with theorems settling the specification claims.

Strings are modelled as lists of characters (the JS engine works on
sequences of code points; all inputs relevant here are ASCII or valid
Unicode scalar values) and byte sequences as lists of naturals below 256.
-/

namespace HonoUws

/-! ## String and byte primitives -/

/-- Byte sequence written for one character when a JS string is written to
the socket (UTF-8 encoding, RFC 3629). -/
def utf8Ch (c : Char) : List Nat :=
  let n := c.toNat
  if n < 0x80 then [n]
  else if n < 0x800 then [0xC0 + n / 64, 0x80 + n % 64]
  else if n < 0x10000 then
    [0xE0 + n / 4096, 0x80 + (n / 64) % 64, 0x80 + n % 64]
  else
    [0xF0 + n / 262144, 0x80 + (n / 4096) % 64, 0x80 + (n / 64) % 64,
      0x80 + n % 64]

/-- UTF-8 encoding of a JS string, as written by the native write call. -/
def utf8Str (s : List Char) : List Nat := s.flatMap utf8Ch

/-- Replacement character U+FFFD used by JS text decoding on invalid input. -/
def repl : Char := Char.ofNat 0xFFFD

/-- Continuation byte test for UTF-8 decoding (0x80 to 0xBF). -/
def contByte (b : Nat) : Bool := 0x80 ≤ b && b ≤ 0xBF

/-- Allowed range of the second byte of a multi-byte UTF-8 sequence,
per the WHATWG decoder (tightened ranges for leads E0, ED, F0, F4 ruling
out overlong forms and surrogates). -/
def secondByteOk (b b2 : Nat) : Bool :=
  if b == 0xE0 then 0xA0 ≤ b2 && b2 ≤ 0xBF
  else if b == 0xED then 0x80 ≤ b2 && b2 ≤ 0x9F
  else if b == 0xF0 then 0x90 ≤ b2 && b2 ≤ 0xBF
  else if b == 0xF4 then 0x80 ≤ b2 && b2 ≤ 0x8F
  else contByte b2

/-- UTF-8 decoding with U+FFFD replacement on invalid input, modelling what
the `text()` accessor of a Response returns on a raw byte body (WHATWG
UTF-8 decode). -/
def utf8DecodeRepl : List Nat → List Char
  | [] => []
  | b :: rest =>
    if b ≤ 0x7F then Char.ofNat b :: utf8DecodeRepl rest
    else if b ≤ 0xC1 then repl :: utf8DecodeRepl rest
    else if b ≤ 0xDF then
      match rest with
      | [] => [repl]
      | b2 :: r2 =>
        if contByte b2 then
          Char.ofNat ((b - 0xC0) * 64 + (b2 - 0x80)) :: utf8DecodeRepl r2
        else repl :: utf8DecodeRepl (b2 :: r2)
    else if b ≤ 0xEF then
      match rest with
      | [] => [repl]
      | b2 :: r2 =>
        if secondByteOk b b2 then
          match r2 with
          | [] => [repl]
          | b3 :: r3 =>
            if contByte b3 then
              Char.ofNat ((b - 0xE0) * 4096 + (b2 - 0x80) * 64 + (b3 - 0x80))
                :: utf8DecodeRepl r3
            else repl :: utf8DecodeRepl (b3 :: r3)
        else repl :: utf8DecodeRepl (b2 :: r2)
    else if b ≤ 0xF4 then
      match rest with
      | [] => [repl]
      | b2 :: r2 =>
        if secondByteOk b b2 then
          match r2 with
          | [] => [repl]
          | b3 :: r3 =>
            if contByte b3 then
              match r3 with
              | [] => [repl]
              | b4 :: r4 =>
                if contByte b4 then
                  Char.ofNat ((b - 0xF0) * 262144 + (b2 - 0x80) * 4096 +
                      (b3 - 0x80) * 64 + (b4 - 0x80)) :: utf8DecodeRepl r4
                else repl :: utf8DecodeRepl (b4 :: r4)
            else repl :: utf8DecodeRepl (b3 :: r3)
        else repl :: utf8DecodeRepl (b2 :: r2)
    else repl :: utf8DecodeRepl rest

/-- Lowercasing of a header name, as JS Headers normalization does
(header names are ASCII tokens; Char.toLower is the ASCII mapping). -/
def lowerChars (l : List Char) : List Char := l.map Char.toLower

/-- Uppercasing of a method token, modelling toUpperCase on the ASCII
method strings returned by the transport. -/
def upperChars (l : List Char) : List Char := l.map Char.toUpper

/-- Tests whether the first list is a prefix of the second. -/
def leadsWith : List Char → List Char → Bool
  | [], _ => true
  | _ :: _, [] => false
  | p :: ps, c :: cs => p == c && leadsWith ps cs

/-- Model of the JS startsWith test on strings. -/
def strStartsL (s p : List Char) : Bool := leadsWith p s

/-- Model of the JS includes test (substring occurrence). -/
def strContainsL : List Char → List Char → Bool
  | [], sub => leadsWith sub []
  | c :: cs, sub => leadsWith sub (c :: cs) || strContainsL cs sub

/-- Model of the JS endsWith test (suffix occurrence). -/
def strEndsL (s p : List Char) : Bool := leadsWith p.reverse s.reverse

/-- Lexicographic order on header names by code point, the iteration order
a JS Headers object uses. -/
def nameLt : List Char → List Char → Bool
  | [], [] => false
  | [], _ :: _ => true
  | _ :: _, [] => false
  | a :: as_, b :: bs => a.toNat < b.toNat || (a == b && nameLt as_ bs)

/-- Sorted insertion of a header name. -/
def insertName (x : List Char) : List (List Char) → List (List Char)
  | [] => [x]
  | y :: ys => if nameLt x y then x :: y :: ys else y :: insertName x ys

/-- Insertion sort of header names. -/
def sortNames : List (List Char) → List (List Char)
  | [] => []
  | x :: xs => insertName x (sortNames xs)

/-- Removal of duplicate names, keeping the first occurrence. -/
def dedupAux (seen : List (List Char)) : List (List Char) → List (List Char)
  | [] => []
  | x :: xs =>
    if seen.contains x then dedupAux seen xs
    else x :: dedupAux (x :: seen) xs

def dedupNames (l : List (List Char)) : List (List Char) := dedupAux [] l

/-- Header pair lists: names and values as character lists. -/
abbrev Hdrs := List (List Char × List Char)

/-- Distinct lowercased names carried by a header pair list, in the sorted
order a Headers object iterates them. -/
def headerNames (h : Hdrs) : List (List Char) :=
  sortNames (dedupNames (h.map (fun p => lowerChars p.1)))

/-- Joining of the values of duplicate header entries, as Headers does. -/
def joinComma : List (List Char) → List Char
  | [] => []
  | [v] => v
  | v :: vs => v ++ (", ".data) ++ joinComma vs

/-- Combined value of all entries carrying the given lowercased name. -/
def combinedValue (h : Hdrs) (n : List Char) : List Char :=
  joinComma ((h.filter (fun p => lowerChars p.1 == n)).map (fun p => p.2))

/-- Normalized view of a header pair list: the contents of the JS Headers
object built from it (lowercased names, duplicate values combined with a
comma separator, entries iterated in sorted name order). -/
def normalizeHdrs (h : Hdrs) : Hdrs :=
  (headerNames h).map (fun n => (n, combinedValue h n))

/-- Model of Headers.get: case-insensitive lookup returning the combined
value, or none when the name is absent. -/
def getHdr (h : Hdrs) (n : List Char) : Option (List Char) :=
  if h.any (fun p => lowerChars p.1 == lowerChars n) then
    some (combinedValue h (lowerChars n))
  else none

/-- The content-type header name. -/
def ctName : List Char := "content-type".data

/-! ## Response model (LightweightResponse, src/uws.ts lines 111 to 217) -/

/-- The BodyInit shapes the LightweightResponse constructor distinguishes:
absent (null or undefined), string, Uint8Array, ReadableStream (a value
with a getReader member), Blob, and everything else (ArrayBuffer,
FormData, URLSearchParams, ...).  Stream and blob constructors carry the
byte content the standard machinery would eventually resolve; a blob also
carries its MIME type, and the other constructor carries the default
content-type and bytes the standard Response machinery would produce
for it. -/
inductive BodyV
  | noBody
  | text (s : List Char)
  | bytes (b : List Nat)
  | stream (content : List Nat)
  | blobBody (btype : List Char) (content : List Nat)
  | otherBody (dct : Option (List Char)) (content : List Nat)
deriving DecidableEq

/-- Shapes of the headers field of a ResponseInit: a Headers instance, an
array of pairs, or a plain record.  The first two carry the construction
pairs; the object entries are their normalized view. -/
inductive HdrsInit
  | hObj (pairs : Hdrs)
  | arr (pairs : Hdrs)
  | record (fields : Hdrs)
deriving DecidableEq

/-- Model of a ResponseInit value. -/
structure RespInit where
  status : Option Nat
  headers : Option HdrsInit
deriving DecidableEq

/-- Headers representation stored in the fast-path cache triple: either a
Headers object (normalized entries) or a raw record (field order and
spelling as written). -/
inductive HdrsRep
  | hdrsObj (entries : Hdrs)
  | record (fields : Hdrs)
deriving DecidableEq

/-- Body slot of the fast-path cache triple, after the body-or-empty-string
defaulting the constructor applies. -/
inductive CacheBody
  | cs (s : List Char)
  | cb (b : List Nat)
  | cstream
  | cblob
deriving DecidableEq

/-- The fast-path cache triple captured at construction (status, body,
headers), src/uws.ts lines 163 to 167. -/
structure RespCache where
  status : Nat
  body : CacheBody
  headers : HdrsRep
deriving DecidableEq

/-- Model of a LightweightResponse: the constructor arguments it retains. -/
structure LWResponse where
  body : BodyV
  init : Option RespInit
deriving DecidableEq

/-- Status stored into the cache triple: init.status with JS falsy
defaulting to 200 (the source writes init?.status || 200). -/
def jsOrStatus (i : Option RespInit) : Nat :=
  match i with
  | some ⟨some st, _⟩ => if st == 0 then 200 else st
  | _ => 200

/-- Headers representation captured into the cache triple, src/uws.ts
lines 151 to 161: a Headers instance is kept, an array is wrapped in a new
Headers, a record is kept raw, and absent headers become the empty
record. -/
def capturedHeaders (i : Option RespInit) : HdrsRep :=
  match i with
  | some ⟨_, some (.hObj l)⟩ => .hdrsObj (normalizeHdrs l)
  | some ⟨_, some (.arr l)⟩ => .hdrsObj (normalizeHdrs l)
  | some ⟨_, some (.record l)⟩ => .record l
  | _ => .record []

/-- The constructor of LightweightResponse, src/uws.ts lines 137 to 169:
the cache triple is captured when the body is absent, a string, a value
with a getReader member, a Blob, or a Uint8Array; the body slot stores
body-or-empty-string. -/
def cacheOf (r : LWResponse) : Option RespCache :=
  match r.body with
  | .noBody => some ⟨jsOrStatus r.init, .cs [], capturedHeaders r.init⟩
  | .text s => some ⟨jsOrStatus r.init, .cs s, capturedHeaders r.init⟩
  | .bytes b => some ⟨jsOrStatus r.init, .cb b, capturedHeaders r.init⟩
  | .stream _ => some ⟨jsOrStatus r.init, .cstream, capturedHeaders r.init⟩
  | .blobBody _ _ => some ⟨jsOrStatus r.init, .cblob, capturedHeaders r.init⟩
  | .otherBody _ _ => none

/-- Entries observed when the stored headers representation is read
through the Headers interface (the headers getter wraps a raw record in a
new Headers, src/uws.ts lines 171 to 180). -/
def repEntries (rep : HdrsRep) : Hdrs :=
  match rep with
  | .hdrsObj l => l
  | .record l => normalizeHdrs l

/-- Resolved body of the full (standard) Response object. -/
inductive ResolvedBody
  | ofStr (s : List Char)
  | ofBytes (b : List Nat)
deriving DecidableEq

/-- Model of the full standard Response the getResponseCache accessor
builds from the retained constructor arguments. -/
structure GResponse where
  status : Nat
  headers : Hdrs
  body : ResolvedBody
deriving DecidableEq

/-- Header pairs the standard Response constructor starts from: the
entries of the supplied HeadersInit (a Headers instance contributes its
normalized entries), or nothing. -/
def initHdrsList (i : Option RespInit) : Hdrs :=
  match i with
  | some ⟨_, some (.hObj l)⟩ => normalizeHdrs l
  | some ⟨_, some (.arr l)⟩ => l
  | some ⟨_, some (.record l)⟩ => l
  | _ => []

/-- Default content-type the standard Response machinery associates with a
body when the supplied headers carry none: text/plain for strings, the
blob type for blobs (when nonempty), the shape-specific default for other
body kinds, and none for absent bodies, byte arrays and streams. -/
def defaultCt (b : BodyV) : Option (List Char) :=
  match b with
  | .text _ => some ("text/plain;charset=UTF-8".data)
  | .blobBody t _ => if t == [] then none else some t
  | .otherBody d _ => d
  | _ => none

/-- Resolved byte-level body of the standard Response. -/
def resolvedOf (b : BodyV) : ResolvedBody :=
  match b with
  | .noBody => .ofBytes []
  | .text s => .ofStr s
  | .bytes b => .ofBytes b
  | .stream c => .ofBytes c
  | .blobBody _ c => .ofBytes c
  | .otherBody _ c => .ofBytes c

/-- The full standard Response built by getResponseCache (new
GlobalResponse(body, init), src/uws.ts line 134): headers are the supplied
pairs normalized, with the body default content-type appended when none
was supplied. -/
def mkGResponse (r : LWResponse) : GResponse :=
  let base := initHdrsList r.init
  let withDflt :=
    match getHdr base ctName, defaultCt r.body with
    | Option.none, some d => base ++ [(ctName, d)]
    | _, _ => base
  { status := match r.init with | some ⟨some st, _⟩ => st | _ => 200
    headers := normalizeHdrs withDflt
    body := resolvedOf r.body }

/-- Value of the text accessor of the full Response. -/
def grTextChars (g : GResponse) : List Char :=
  match g.body with
  | .ofStr s => s
  | .ofBytes b => utf8DecodeRepl b

/-- Value of the arrayBuffer accessor of the full Response. -/
def grBytes (g : GResponse) : List Nat :=
  match g.body with
  | .ofStr s => utf8Str s
  | .ofBytes b => b

/-- The status the async writer reads (the status getter, src/uws.ts line
183: cache status when the triple is present, else the full object
status). -/
def lwStatus (r : LWResponse) : Nat :=
  match cacheOf r with
  | some c => c.status
  | none => (mkGResponse r).status

/-- The content-type the async writer looks up (the headers getter: cache
headers when the triple is present, else the full object headers). -/
def lwCtForGet (r : LWResponse) : Option (List Char) :=
  match cacheOf r with
  | some c => getHdr (repEntries c.headers) ctName
  | none => getHdr (mkGResponse r).headers ctName

/-! ## Response writers (src/uws.ts lines 363 to 458) -/

/-- One atomic write batch: the status string, the header pairs in the
order they are written, and the body bytes. -/
structure Wire where
  status : List Char
  headers : Hdrs
  body : List Nat
deriving DecidableEq

/-- Header pairs emitted by writeHeaders, src/uws.ts lines 364 to 377: a
Headers instance iterates its normalized entries; a record is iterated
key by key in insertion order with the spelling as written. -/
def writeHeadersM (rep : HdrsRep) : Hdrs :=
  match rep with
  | .hdrsObj l => l
  | .record l => l

/-- Fast path writer writeResponseViaCache, src/uws.ts lines 380 to 410:
returns whether the response was handled, and the write batch performed
(none when aborted or when the cached body is a stream or blob). -/
def writeResponseViaCacheM (c : RespCache) (aborted : Bool) :
    Bool × Option Wire :=
  if aborted then (true, none)
  else
    match c.body with
    | .cs s =>
      (true, some ⟨(Nat.repr c.status).data, writeHeadersM c.headers, utf8Str s⟩)
    | .cb b =>
      (true, some ⟨(Nat.repr c.status).data, writeHeadersM c.headers, b⟩)
    | _ => (false, none)

/-- Content-type condition selecting text resolution in the async writer,
src/uws.ts lines 424 to 429: present, and starts with text/, starts with
application/json, or has +json anywhere. -/
def ctSniff (ct : Option (List Char)) : Bool :=
  match ct with
  | some c =>
    strStartsL c ("text/".data) || strStartsL c ("application/json".data) ||
      strContainsL c ("+json".data)
  | none => false

/-- Async path writer writeResponseAsync, src/uws.ts lines 413 to 458.
The abort flag is sampled at its observation points: abortAt 0 on entry,
abortAt 1 after the body resolution await.  Content-type and status are
read before resolution (through the cache triple when present); resolving
the body materializes the full Response and deletes the triple, so the
headers written afterwards are the full object headers.  A resolved byte
length of zero ends the response with an empty body either way, so the
wire batch carries the resolved bytes unconditionally. -/
def writeResponseAsyncM (r : LWResponse) (abortAt : Nat → Bool) :
    Option Wire :=
  if abortAt 0 then none
  else
    let ct := lwCtForGet r
    let status := lwStatus r
    let g := mkGResponse r
    if ctSniff ct then
      if abortAt 1 then none
      else some ⟨(Nat.repr status).data, g.headers, utf8Str (grTextChars g)⟩
    else
      if abortAt 1 then none
      else some ⟨(Nat.repr status).data, g.headers, grBytes g⟩

/-! ## Lazy request descriptor (src/uws.ts lines 219 to 336, 608 to 639) -/

/-- Data captured synchronously for a lazy request: method, URL, header
pairs and whether a body stream handle is attached. -/
structure LazyReq where
  method : List Char
  url : List Char
  headersData : Hdrs
  hasBody : Bool
deriving DecidableEq

/-- Mutable memoization state attached to a lazy request: the identity of
the materialized full Request if one was built (object identities are
modelled as allocation numbers), the next fresh identity, and how many
times the body handle has been handed to a full Request construction. -/
structure MatState where
  requestCache : Option Nat
  nextId : Nat
  bodyReads : Nat
deriving DecidableEq

/-- The getRequestCache promotion, src/uws.ts lines 271 to 281: return the
memoized full Request if present, otherwise build one (consuming the body
handle when there is one), memoize it and return it. -/
def getRequestCacheM (d : LazyReq) (st : MatState) : Nat × MatState :=
  match st.requestCache with
  | some r => (r, st)
  | none =>
    (st.nextId,
      { requestCache := some st.nextId
        nextId := st.nextId + 1
        bodyReads := st.bodyReads + (if d.hasBody then 1 else 0) })

/-- Repeated promotion: n further promotion calls after a given state,
returning the last result and state. -/
def iterPromote (d : LazyReq) : Nat → MatState → Nat × MatState
  | 0, st => getRequestCacheM d st
  | n + 1, st => iterPromote d n (getRequestCacheM d st).2

/-- Construction of the lazy request in the HTTP handler, src/uws.ts
lines 608 to 639: the method is uppercased, and a body stream bridge is
created exactly for methods other than GET, HEAD and OPTIONS. -/
def anyHandlerBuildRequest (rawMethod url : List Char) (hd : Hdrs) :
    LazyReq :=
  let m := upperChars rawMethod
  { method := m
    url := url
    headersData := hd
    hasBody :=
      !(m == "GET".data || m == "HEAD".data || m == "OPTIONS".data) }

/-! ## WebSocket upgrade bridge (src/uws.ts lines 495 to 606) -/

/-- A registered callback set, together with whether each present callback
throws when invoked (modelling arbitrary application callbacks). -/
structure WSEventsM where
  hasOnOpen : Bool
  onOpenThrows : Bool
  hasOnMessage : Bool
  onMessageThrows : Bool
  hasOnClose : Bool
  onCloseThrows : Bool
deriving DecidableEq

/-- Observable actions of the session lifecycle handlers. -/
inductive WSAct
  | syntheticFetch
  | endWs (code : Nat) (reason : List Char)
  | invokeOnOpen
  | invokeOnMessage
  | invokeOnClose (code : Nat) (reason : List Char)
  | logError
deriving DecidableEq

/-- Environment of one open callback run: the registry entry for the path
before the run, the status of the synthetic application pass, the registry
entry looked up again after that pass, and whether the handler factory
itself throws. -/
structure OpenEnv where
  preRegistered : Option WSEventsM
  fetchStatus : Nat
  postRegistered : Option WSEventsM
  handlerThrows : Bool
deriving DecidableEq

/-- The tail of the open callback once a handler factory is at hand,
src/uws.ts lines 556 to 582: invoke the factory (a throw is caught by the
surrounding try and closes with 1011 after logging), store the returned
callbacks, and invoke onOpen if present (a throw there is likewise
caught; the callbacks were already stored). -/
def runHandlerPhase (ev : WSEventsM) (handlerThrows : Bool) :
    List WSAct × Option WSEventsM :=
  if handlerThrows then
    ([.logError, .endWs 1011 ("Internal Error".data)], none)
  else if ev.hasOnOpen then
    if ev.onOpenThrows then
      ([.invokeOnOpen, .logError, .endWs 1011 ("Internal Error".data)],
        some ev)
    else ([.invokeOnOpen], some ev)
  else ([], some ev)

/-- The open callback, src/uws.ts lines 528 to 583: returns the emitted
actions and the callback set stored on the session.  When no handler is
registered for the path, one synthetic application pass is made; a status
other than 101, or a registry still without an entry afterwards, closes
the session with 1008. -/
def openM (e : OpenEnv) : List WSAct × Option WSEventsM :=
  match e.preRegistered with
  | some ev => runHandlerPhase ev e.handlerThrows
  | none =>
    if e.fetchStatus != 101 then
      ([.syntheticFetch, .endWs 1008 ("Not Found".data)], none)
    else
      match e.postRegistered with
      | none => ([.syntheticFetch, .endWs 1008 ("Not Found".data)], none)
      | some ev =>
        let p := runHandlerPhase ev e.handlerThrows
        (.syntheticFetch :: p.1, p.2)

/-- Outcome of a transport callback dispatch: the actions it performed, or
an exception escaping uncaught to the transport dispatch loop. -/
inductive WSOutcome
  | done (acts : List WSAct)
  | thrown
deriving DecidableEq

/-- The message callback, src/uws.ts lines 584 to 594: dispatch to the
stored onMessage callback if present.  The body has no try wrapper, so a
throwing callback propagates to the transport dispatch loop; this is
modelled by the thrown outcome. -/
def messageM (stored : Option WSEventsM) : WSOutcome :=
  match stored with
  | some ev =>
    if ev.hasOnMessage then
      if ev.onMessageThrows then .thrown
      else .done [.invokeOnMessage]
    else .done []
  | none => .done []

/-- The close callback, src/uws.ts lines 595 to 605: dispatch to the
stored onClose callback if present, with the close code and decoded
reason; as with message, there is no try wrapper. -/
def closeM (stored : Option WSEventsM) (code : Nat) (reason : List Char) :
    WSOutcome :=
  match stored with
  | some ev =>
    if ev.hasOnClose then
      if ev.onCloseThrows then .thrown
      else .done [.invokeOnClose code reason]
    else .done []
  | none => .done []

/-! ## Connection abort bookkeeping (src/uws.ts lines 342 to 361, 627 to
636) -/

/-- The two abort callbacks the HTTP handler registers. -/
inductive AbortCb
  | abortWriter
  | setAbortedFlag
deriving DecidableEq

/-- Per-connection state: the single onAborted callback slot the transport
keeps (modelled from uWebSockets.js semantics: an HttpResponse stores one
abort handler, and a second registration replaces the first), whether the
body stream bridge was closed in an errored state, and the aborted
flag. -/
structure ConnM where
  abortCb : Option AbortCb
  streamErrored : Bool
  abortedFlag : Bool
deriving DecidableEq

/-- Registration of an abort callback: the stored slot is replaced. -/
def onAbortedM (c : ConnM) (h : AbortCb) : ConnM := { c with abortCb := some h }

/-- The body stream bridge setup in getBody, src/uws.ts lines 342 to 361:
it registers an abort callback that aborts the stream writer. -/
def getBodySetupM (c : ConnM) : ConnM := onAbortedM c .abortWriter

/-- The HTTP handler setup, src/uws.ts lines 627 to 636: getBody runs
first when the method can carry a body, then the handler registers its own
abort callback that records the aborted flag. -/
def anyHandlerSetupM (needsBody : Bool) (c : ConnM) : ConnM :=
  onAbortedM (if needsBody then getBodySetupM c else c) .setAbortedFlag

/-- Delivery of the transport abort notification: run the stored abort
callback, if any. -/
def fireAbortM (c : ConnM) : ConnM :=
  match c.abortCb with
  | some .abortWriter => { c with streamErrored := true }
  | some .setAbortedFlag => { c with abortedFlag := true }
  | none => c

/-- A fresh connection before any registration. -/
def freshConn : ConnM := ⟨none, false, false⟩

/-! ## Definitions taken from the claims (spec side, for comparison) -/

/-- Modelled from the spec: the claim C2/C4 class of fast-path body
variants, bodyVariant in {None, Text, Bytes}. -/
def fastEligibleSpec (b : BodyV) : Bool :=
  match b with
  | .noBody => true
  | .text _ => true
  | .bytes _ => true
  | _ => false

/-- Modelled from the spec: the claim C3 text-resolution condition, a
content-type that starts with text/, equals or contains application/json,
or ends with +json. -/
def ctSniffSpec (ct : Option (List Char)) : Bool :=
  match ct with
  | some c =>
    strStartsL c ("text/".data) || strContainsL c ("application/json".data) ||
      strEndsL c ("+json".data)
  | none => false

/-- The amended claim C3 text-resolution condition: a content-type that
starts with text/, starts with application/json, or contains +json
anywhere. -/
def ctSniffAmended (ct : Option (List Char)) : Bool :=
  match ct with
  | some c =>
    strStartsL c ("text/".data) || strStartsL c ("application/json".data) ||
      strContainsL c ("+json".data)
  | none => false

/-! ## Theorems -/

/-- C1: on every write path, once the aborted flag has been observed true
no write of any kind is performed for that response: the fast path with
the flag true performs no write, and the async path performs no write
whenever either of its two observation points (entry, or the re-check
right after the body-resolution await) sees true — in particular when the
flag becomes true during the await.  The suppression is a plain return,
not an error. -/
theorem abort_suppresses_all_writes (c : RespCache) (r : LWResponse)
    (a : Nat → Bool) (h : a 0 = true ∨ a 1 = true) :
    (writeResponseViaCacheM c true).2 = Option.none ∧
    writeResponseAsyncM r a = Option.none := by
  refine ⟨rfl, ?_⟩
  unfold writeResponseAsyncM
  rcases h with h | h
  · simp [h]
  · cases h0 : a 0 <;> simp [h0, h]

/-- Witness for C1 at a concrete cache triple, response and abort
schedule that is already aborted at the first observation. -/
theorem abort_suppresses_all_writes_witness :
    ((fun _ : Nat => true) 0 = true ∨ (fun _ : Nat => true) 1 = true) ∧
    ((writeResponseViaCacheM ⟨200, .cs [], .record []⟩ true).2 = Option.none ∧
      writeResponseAsyncM ⟨.noBody, Option.none⟩ (fun _ => true) =
        Option.none) :=
  ⟨Or.inl rfl,
    abort_suppresses_all_writes ⟨200, .cs [], .record []⟩
      ⟨.noBody, Option.none⟩ (fun _ => true) (Or.inl rfl)⟩

/-- C6: materialization of a lazy request is idempotent.  After the first
promotion, any number of further promotion calls returns the same object
identity with the state unchanged, and the first promotion consults the
body handle at most once, so the body is read at most once across all
promotions. -/
theorem materialize_idempotent (d : LazyReq) (st : MatState) (n : Nat) :
    iterPromote d n (getRequestCacheM d st).2 =
      ((getRequestCacheM d st).1, (getRequestCacheM d st).2) ∧
    (getRequestCacheM d st).2.bodyReads ≤ st.bodyReads + 1 := by
  have stable : ∀ s r, s.requestCache = some r → getRequestCacheM d s = (r, s) := by
    intro s r h
    simp [getRequestCacheM, h]
  have hcache : (getRequestCacheM d st).2.requestCache =
      some (getRequestCacheM d st).1 := by
    cases h : st.requestCache <;> simp [getRequestCacheM, h]
  constructor
  · induction n with
    | zero => simpa [iterPromote] using stable _ _ hcache
    | succ n ih =>
      have hs := stable _ _ hcache
      simp only [iterPromote, hs]
      exact ih
  · cases h : st.requestCache <;>
      cases hb : d.hasBody <;> simp [getRequestCacheM, h, hb]

/-- C9: evaluation of the connection abort bookkeeping at the failing
input (a request whose method can carry a body, so getBody has registered
its stream-aborting callback before the handler registers the flag-setting
one).  Because the transport keeps a single abort callback and a second
registration replaces the first, firing the abort notification only sets
the aborted flag and never closes the body stream bridge in an errored
state — a pending consumer read is left hanging, against the claim.  The
third conjunct shows the getBody registration alone would have errored the
stream, isolating the replacement as the cause. -/
theorem abort_handler_clobbered :
    fireAbortM (anyHandlerSetupM true freshConn) =
      ⟨some .setAbortedFlag, false, true⟩ ∧
    (fireAbortM (anyHandlerSetupM true freshConn)).streamErrored = false ∧
    (fireAbortM (getBodySetupM freshConn)).streamErrored = true := by
  decide

/-- C10: the lazy request built by the HTTP handler carries no body stream
bridge exactly when its (uppercased) method is GET, HEAD or OPTIONS; every
other method gets a bridge attached. -/
theorem body_bridge_iff_method (raw url : List Char) (hd : Hdrs) :
    (anyHandlerBuildRequest raw url hd).hasBody = false ↔
      ((anyHandlerBuildRequest raw url hd).method = "GET".data ∨
        (anyHandlerBuildRequest raw url hd).method = "HEAD".data ∨
        (anyHandlerBuildRequest raw url hd).method = "OPTIONS".data) := by
  simp [anyHandlerBuildRequest]
  tauto

/-- Witness for C10 at the concrete lowercase method the transport
delivers for a GET request. -/
theorem body_bridge_iff_method_witness :
    ((anyHandlerBuildRequest "get".data "/".data []).method = "GET".data) ∧
    (anyHandlerBuildRequest "get".data "/".data []).hasBody = false :=
  ⟨by decide,
    (body_bridge_iff_method ("get".data) ("/".data) []).mpr
      (Or.inl (by decide))⟩

/-- C7: for a session opened on a path with no registered handler, exactly
one synthetic application pass is made; if its status is not 101, or the
registry lookup after a 101 response still finds no handler, the session
is closed with code 1008 and onOpen is never invoked. -/
theorem no_handler_closes_1008 (e : OpenEnv)
    (h1 : e.preRegistered = Option.none)
    (h2 : e.fetchStatus ≠ 101 ∨ e.postRegistered = Option.none) :
    (openM e).1 = [.syntheticFetch, .endWs 1008 ("Not Found".data)] ∧
    WSAct.invokeOnOpen ∉ (openM e).1 := by
  have hacts : (openM e).1 =
      [.syntheticFetch, .endWs 1008 ("Not Found".data)] := by
    rcases h2 with h2 | h2
    · have hb : (e.fetchStatus != 101) = true := by
        simpa [bne_iff_ne] using h2
      simp [openM, h1, hb]
    · by_cases hf : e.fetchStatus = 101
      · simp [openM, h1, hf, h2]
      · have hb : (e.fetchStatus != 101) = true := by
          simpa [bne_iff_ne] using hf
        simp [openM, h1, hb]
  exact ⟨hacts, by rw [hacts]; decide⟩

/-- Witness for C7: a session on an unregistered path whose synthetic pass
returns 404. -/
theorem no_handler_closes_1008_witness :
    ((⟨Option.none, 404, Option.none, false⟩ : OpenEnv).preRegistered =
      Option.none) ∧
    ((404 : Nat) ≠ 101) ∧
    ((openM ⟨Option.none, 404, Option.none, false⟩).1 =
        [.syntheticFetch, .endWs 1008 ("Not Found".data)] ∧
      WSAct.invokeOnOpen ∉
        (openM ⟨Option.none, 404, Option.none, false⟩).1) :=
  ⟨rfl, by decide,
    no_handler_closes_1008 ⟨Option.none, 404, Option.none, false⟩ rfl
      (Or.inl (by decide))⟩

/-- Counterexample to C8: a stored callback set whose onMessage throws.
The message dispatch (src/uws.ts lines 584 to 594) has no try wrapper, so
the exception escapes uncaught to the transport dispatch loop and the
session is not closed with 1011, against the claim that every callback
exception during the open session is caught, logged and turned into a
1011 close. -/
theorem message_throw_propagates :
    messageM (some ⟨false, false, true, true, false, false⟩) =
      WSOutcome.thrown ∧
    closeM (some ⟨false, false, false, false, true, true⟩) 1000 [] =
      WSOutcome.thrown := by
  decide

/-- C8 as amended: an exception thrown during the open callback (by the
handler factory or by onOpen) is caught, logged and closes the session
with code 1011, and never escapes the open callback (openM is total);
exceptions thrown by the stored onMessage callback, by contrast, propagate
uncaught to the transport dispatch loop. -/
theorem open_phase_throw_closes_1011 (e : OpenEnv) (ev : WSEventsM)
    (hreg : e.preRegistered = some ev ∨
      (e.preRegistered = Option.none ∧ e.fetchStatus = 101 ∧
        e.postRegistered = some ev))
    (hthrow : e.handlerThrows = true ∨
      (e.handlerThrows = false ∧ ev.hasOnOpen = true ∧
        ev.onOpenThrows = true)) :
    WSAct.endWs 1011 ("Internal Error".data) ∈ (openM e).1 ∧
    WSAct.logError ∈ (openM e).1 ∧
    (∀ ev2 : WSEventsM, ev2.hasOnMessage = true → ev2.onMessageThrows = true →
      messageM (some ev2) = WSOutcome.thrown) := by
  have hrun : WSAct.endWs 1011 ("Internal Error".data) ∈
      (runHandlerPhase ev e.handlerThrows).1 ∧
      WSAct.logError ∈ (runHandlerPhase ev e.handlerThrows).1 := by
    rcases hthrow with h | ⟨h1, h2, h3⟩
    · simp [runHandlerPhase, h]
    · simp [runHandlerPhase, h1, h2, h3]
  refine ⟨?_, ?_, ?_⟩
  · rcases hreg with h | ⟨h1, h2, h3⟩
    · simpa [openM, h] using hrun.1
    · have hb : (e.fetchStatus != 101) = false := by simp [h2]
      simp only [openM, h1, hb, h3]
      simp [hrun.1]
  · rcases hreg with h | ⟨h1, h2, h3⟩
    · simpa [openM, h] using hrun.2
    · have hb : (e.fetchStatus != 101) = false := by simp [h2]
      simp only [openM, h1, hb, h3]
      simp [hrun.2]
  · intro ev2 hm ht
    simp [messageM, hm, ht]

/-- Witness for the amended C8: a registered path whose handler factory
throws during open. -/
theorem open_phase_throw_closes_1011_witness :
    ((⟨some ⟨false, false, false, false, false, false⟩, 0, Option.none,
        true⟩ : OpenEnv).preRegistered =
      some ⟨false, false, false, false, false, false⟩) ∧
    ((⟨some ⟨false, false, false, false, false, false⟩, 0, Option.none,
        true⟩ : OpenEnv).handlerThrows = true) ∧
    (WSAct.endWs 1011 ("Internal Error".data) ∈
      (openM ⟨some ⟨false, false, false, false, false, false⟩, 0,
        Option.none, true⟩).1) :=
  ⟨rfl, rfl,
    (open_phase_throw_closes_1011
      ⟨some ⟨false, false, false, false, false, false⟩, 0, Option.none, true⟩
      ⟨false, false, false, false, false, false⟩
      (Or.inl rfl) (Or.inl rfl)).1⟩

/-- Counterexample to C3: the content-type application/vnd+jsonx does not
start with text/, does not equal or contain application/json, and does not
end with +json, so the claim predicts a raw-bytes resolution; but the code
condition (which tests +json anywhere) resolves it as text, observable on
the wire: the single byte 0xFF is decoded with a replacement character and
re-encoded as EF BF BD instead of being written raw. -/
theorem sniff_counterexample :
    ctSniff (some ("application/vnd+jsonx".data)) = true ∧
    ctSniffSpec (some ("application/vnd+jsonx".data)) = false ∧
    writeResponseAsyncM
      ⟨.bytes [255],
        some ⟨Option.none,
          some (.hObj [(ctName, "application/vnd+jsonx".data)])⟩⟩
      (fun _ => false) =
      some ⟨"200".data, [(ctName, "application/vnd+jsonx".data)],
        [0xEF, 0xBF, 0xBD]⟩ := by
  decide

/-- C3 as amended: the async writer resolves the body as text exactly when
the looked-up content-type is present and starts with text/, starts with
application/json, or contains +json anywhere; for every other content-type
(including absent) it resolves raw bytes.  The second conjunct ties the
condition to the full writer output on a non-aborted connection. -/
theorem sniff_amended (r : LWResponse) :
    (ctSniff (lwCtForGet r) = ctSniffAmended (lwCtForGet r)) ∧
    writeResponseAsyncM r (fun _ => false) =
      some ⟨(Nat.repr (lwStatus r)).data, (mkGResponse r).headers,
        if ctSniffAmended (lwCtForGet r) = true then
          utf8Str (grTextChars (mkGResponse r))
        else grBytes (mkGResponse r)⟩ := by
  have hsame : ctSniff (lwCtForGet r) = ctSniffAmended (lwCtForGet r) := by
    cases lwCtForGet r <;> rfl
  refine ⟨hsame, ?_⟩
  unfold writeResponseAsyncM
  rw [← hsame]
  cases hsn : ctSniff (lwCtForGet r) <;> simp [hsn]

/-- Counterexample to C4: a Blob body is captured into the fast-path cache
triple (the constructor condition also admits values with a getReader
member and Blob instances), although the claim says only None, Text and
Bytes bodies are captured. -/
theorem capture_counterexample :
    (cacheOf ⟨.blobBody [] [], Option.none⟩).isSome = true ∧
    fastEligibleSpec (.blobBody [] []) = false := by
  decide

/-- C4 as amended: the fast-path triple is captured for every body variant
except the residual ones (ArrayBuffer, FormData, URLSearchParams, ...),
that is also for stream-like and blob bodies; among captured triples, the
fast-path write completes synchronously exactly when the body variant is
None, Text or Bytes — stream and blob triples make the fast path decline
and fall through to the async writer. -/
theorem capture_amended (bv : BodyV) (i : Option RespInit) :
    ((cacheOf ⟨bv, i⟩).isSome =
      match bv with | .otherBody _ _ => false | _ => true) ∧
    (∀ c, cacheOf ⟨bv, i⟩ = some c →
      (writeResponseViaCacheM c false).2.isSome = fastEligibleSpec bv) := by
  constructor
  · cases bv <;> simp [cacheOf]
  · intro c hc
    cases bv <;> simp [cacheOf] at hc <;>
      simp [← hc, writeResponseViaCacheM, fastEligibleSpec]

/-- Witness for the amended C4 at a Text body. -/
theorem capture_amended_witness :
    ((cacheOf ⟨.text "x".data, Option.none⟩).isSome = true) ∧
    (cacheOf ⟨.text "x".data, Option.none⟩ =
      some ⟨200, .cs "x".data, .record []⟩) ∧
    ((writeResponseViaCacheM ⟨200, .cs "x".data, .record []⟩ false).2.isSome =
      fastEligibleSpec (.text "x".data)) :=
  ⟨by decide, by decide,
    (capture_amended (.text "x".data) Option.none).2
      ⟨200, .cs "x".data, .record []⟩ (by decide)⟩

/-- Counterexample to C5: a response constructed with a present string
body and no caller-supplied headers captures the empty record as its
headers — reading them through the Headers interface finds no
content-type at all, although the claim says the captured default headers
carry a plain-text content type. -/
theorem default_headers_counterexample :
    (cacheOf ⟨.text "hi".data, Option.none⟩).map
      (fun c => getHdr (repEntries c.headers) ctName) =
      some Option.none := by
  decide

/-- C5 as amended: when no caller headers are supplied, the captured
default headers are the empty record, with no content-type entry; the
plain-text default text/plain;charset=UTF-8 appears only on the full
standard Response object if the response is ever materialized. -/
theorem default_headers_amended (bv : BodyV) (i : Option RespInit)
    (hi : i = Option.none ∨ ∃ st, i = some ⟨st, Option.none⟩) :
    (∀ c, cacheOf ⟨bv, i⟩ = some c →
      c.headers = .record [] ∧
        getHdr (repEntries c.headers) ctName = Option.none) ∧
    (∀ s, getHdr (mkGResponse ⟨.text s, i⟩).headers ctName =
      some ("text/plain;charset=UTF-8".data)) := by
  have hcap : capturedHeaders i = .record [] := by
    rcases hi with h | ⟨st, h⟩ <;> subst h <;> rfl
  have hbase : initHdrsList i = [] := by
    rcases hi with h | ⟨st, h⟩ <;> subst h <;> rfl
  constructor
  · intro c hc
    cases bv <;> simp [cacheOf, hcap] at hc <;>
      simp [← hc, repEntries, getHdr, combinedValue, normalizeHdrs,
        headerNames, dedupNames, dedupAux, sortNames]
  · intro s
    simp only [mkGResponse, hbase, defaultCt]
    decide

/-- Witness for the amended C5 at a Text body with absent init. -/
theorem default_headers_amended_witness :
    ((Option.none : Option RespInit) = Option.none ∨
      ∃ st, (Option.none : Option RespInit) = some ⟨st, Option.none⟩) ∧
    (cacheOf ⟨.text "hi".data, Option.none⟩ =
      some ⟨200, .cs "hi".data, .record []⟩) ∧
    ((⟨200, .cs "hi".data, .record []⟩ : RespCache).headers = .record [] ∧
      getHdr (repEntries (.record [])) ctName = Option.none) ∧
    (getHdr (mkGResponse ⟨.text "x".data, Option.none⟩).headers ctName =
      some ("text/plain;charset=UTF-8".data)) :=
  ⟨Or.inl rfl, by decide,
    (default_headers_amended (.text "hi".data) Option.none (Or.inl rfl)).1
      ⟨200, .cs "hi".data, .record []⟩ (by decide),
    (default_headers_amended (.text "hi".data) Option.none (Or.inl rfl)).2
      ("x".data)⟩

/-- Counterexample to C2: for the Text-body response new Response("hi")
with no caller headers, on a non-aborted connection, the fast path writes
no content-type header while the async path materializes the full
standard Response, whose headers carry the default
text/plain;charset=UTF-8 — the two write batches are not byte-identical. -/
theorem fast_async_not_byte_identical :
    cacheOf ⟨.text "hi".data, Option.none⟩ =
      some ⟨200, .cs "hi".data, .record []⟩ ∧
    (writeResponseViaCacheM ⟨200, .cs "hi".data, .record []⟩ false).2 =
      some ⟨"200".data, [], [104, 105]⟩ ∧
    writeResponseAsyncM ⟨.text "hi".data, Option.none⟩ (fun _ => false) =
      some ⟨"200".data, [(ctName, "text/plain;charset=UTF-8".data)],
        [104, 105]⟩ ∧
    (writeResponseViaCacheM ⟨200, .cs "hi".data, .record []⟩ false).2 ≠
      writeResponseAsyncM ⟨.text "hi".data, Option.none⟩ (fun _ => false) := by
  decide

/-- C2 as amended: for a response whose body variant is None, Text or
Bytes, on a non-aborted connection, the fast-path write batch is
byte-identical to the async-path write batch, provided the caller supplied
the headers through a Headers object (so both paths see the same
normalized entries), those headers contain a content-type (so the full
object adds no default entry the fast path would miss), and a Bytes body
does not carry a text-sniffing content-type (whose decode-and-re-encode
round trip would rewrite invalid UTF-8). -/
theorem fast_async_byte_identical_normalized
    (bv : BodyV) (stOpt : Option Nat) (l : Hdrs) (ct : List Char)
    (hv : fastEligibleSpec bv = true)
    (hnorm : normalizeHdrs l = l)
    (hct : getHdr l ctName = some ct)
    (hbin : ∀ b, bv = BodyV.bytes b → ctSniff (some ct) = false) :
    ∃ c, cacheOf ⟨bv, some ⟨stOpt, some (.hObj l)⟩⟩ = some c ∧
      (writeResponseViaCacheM c false).2 =
        writeResponseAsyncM ⟨bv, some ⟨stOpt, some (.hObj l)⟩⟩
          (fun _ => false) := by
  cases bv with
  | noBody =>
    refine ⟨_, rfl, ?_⟩
    unfold writeResponseAsyncM
    simp only [lwCtForGet, lwStatus, cacheOf, capturedHeaders, repEntries,
      mkGResponse, initHdrsList, defaultCt, resolvedOf, hnorm, hct,
      writeResponseViaCacheM, writeHeadersM, grTextChars, grBytes]
    cases hsn : ctSniff (some ct) <;> simp [hsn, hnorm, utf8Str, utf8DecodeRepl]
  | text s =>
    refine ⟨_, rfl, ?_⟩
    unfold writeResponseAsyncM
    simp only [lwCtForGet, lwStatus, cacheOf, capturedHeaders, repEntries,
      mkGResponse, initHdrsList, defaultCt, resolvedOf, hnorm, hct,
      writeResponseViaCacheM, writeHeadersM, grTextChars, grBytes]
    cases hsn : ctSniff (some ct) <;> simp [hsn, hnorm]
  | bytes b =>
    refine ⟨_, rfl, ?_⟩
    have hb := hbin b rfl
    unfold writeResponseAsyncM
    simp only [lwCtForGet, lwStatus, cacheOf, capturedHeaders, repEntries,
      mkGResponse, initHdrsList, defaultCt, resolvedOf, hnorm, hct,
      writeResponseViaCacheM, writeHeadersM, grTextChars, grBytes]
    simp [hb, hnorm]
  | stream c => exact absurd hv (by simp [fastEligibleSpec])
  | blobBody t c => exact absurd hv (by simp [fastEligibleSpec])
  | otherBody d c => exact absurd hv (by simp [fastEligibleSpec])

/-- Witness for the amended C2: a Text body with an explicit, normalized
text/plain content-type header. -/
theorem fast_async_byte_identical_normalized_witness :
    (fastEligibleSpec (.text "x".data) = true) ∧
    (normalizeHdrs [(ctName, "text/plain".data)] =
      [(ctName, "text/plain".data)]) ∧
    (getHdr [(ctName, "text/plain".data)] ctName =
      some ("text/plain".data)) ∧
    (∃ c, cacheOf ⟨.text "x".data,
        some ⟨Option.none, some (.hObj [(ctName, "text/plain".data)])⟩⟩ =
        some c ∧
      (writeResponseViaCacheM c false).2 =
        writeResponseAsyncM
          ⟨.text "x".data,
            some ⟨Option.none, some (.hObj [(ctName, "text/plain".data)])⟩⟩
          (fun _ => false)) :=
  ⟨by decide, by decide, by decide,
    fast_async_byte_identical_normalized (.text "x".data) Option.none
      [(ctName, "text/plain".data)] ("text/plain".data)
      (by decide) (by decide) (by decide) (fun b h => nomatch h)⟩

end HonoUws
